import Mathlib

/-!
Shallow embedding of the `FirebaseDataSource` class from
`apollo-datasource-firebase` (`src/index.js`).

JavaScript runtime values that flow through the data source are modelled by
the inductive type `Value`; JavaScript objects are modelled as association
lists in insertion order (`List (String × Value)`), with object-literal
spread semantics (`objInsert`, `objSpread`): a later assignment to an
existing key overwrites its value in place, a new key is appended.

The external collaborators (the Firestore client and the identity provider)
are not part of the repository; where an operation consults them they are
modelled as explicit parameters (a store is a list of stored documents, the
identity verifier is a function argument, admin-API responses are passed
in), following the contracts stated for them in the specification.
-/

namespace ApolloFirebase

/-- A JavaScript runtime value as used by the data source: strings, booleans,
integers, `null` and `undefined`. -/
inductive Value where
  | str (s : String)
  | bool (b : Bool)
  | num (n : Int)
  | null
  | undef
deriving DecidableEq, Repr

/-- JavaScript truthiness of a `Value` (`""`, `false`, `0`, `null` and
`undefined` are falsy). -/
def jsTruthy : Value → Bool
  | .str s => s != ""
  | .bool b => b
  | .num n => n != 0
  | .null => false
  | .undef => false

/-- JavaScript `String.prototype.toLowerCase` restricted to the per-character
lowercase mapping (kernel-reducible model of `value.toLowerCase()`). -/
def jsToLowerCase (s : String) : String :=
  String.mk (s.data.map Char.toLower)

/-- `tryParseBool` from `src/index.js` lines 6-14: a string whose lowercase
form is `"true"`/`"false"` becomes the corresponding boolean; any other
string is returned unchanged; a non-string value has no `toLowerCase`
method, the thrown `TypeError` is caught and the value returned unchanged. -/
def tryParseBool (v : Value) : Value :=
  match v with
  | .str s =>
      if jsToLowerCase s = "true" then .bool true
      else if jsToLowerCase s = "false" then .bool false
      else .str s
  | other => other

/-- Property lookup on a JavaScript object (first matching key; objects built
by `objInsert` keep keys unique, as JavaScript objects do). -/
def objGet : List (String × Value) → String → Option Value
  | [], _ => none
  | p :: t, k => if p.1 = k then some p.2 else objGet t k

/-- Value of the last occurrence of a key in an association list. -/
def objGetLast (o : List (String × Value)) (k : String) : Option Value :=
  objGet o.reverse k

/-- JavaScript property assignment `o[k] = v`: overwrite in place when the
key exists, append otherwise. -/
def objInsert : List (String × Value) → String → Value → List (String × Value)
  | [], k, v => [(k, v)]
  | p :: t, k, v => if p.1 = k then (k, v) :: t else p :: objInsert t k v

/-- JavaScript object-literal spread `{ ...base, ...l }`: the entries of `l`
are assigned into `base` left to right. -/
def objSpread (base l : List (String × Value)) : List (String × Value) :=
  l.foldl (fun acc p => objInsert acc p.1 p.2) base

/-- The document decoding shared by `addDocument`, `getDocumentById`,
`getDocuments` and `getPageOfDocuments` (e.g. `src/index.js` lines 412-415):
the object literal `{ id: documentSnapshot.id, ...documentSnapshot.data() }`. -/
def decode (ident : String) (data : List (String × Value)) : List (String × Value) :=
  objSpread [("id", Value.str ident)] data

/-- The `reservedClaims` deny-list from `src/index.js` line 16. -/
def reservedClaims : List String :=
  ["acr", "amr", "at_hash", "aud", "auth_time", "azp", "cnf", "c_hash", "exp",
   "firebase", "iat", "iss", "jti", "nbf", "nonce", "sub"]

/-- Claim normalization from `retrieveUserFromToken` (`src/index.js` lines
121-127).  `var claims` starts out `undefined` (modelled `none`); each
non-reserved key is assigned into it (spreading `undefined` yields `{}`).
The line `if (!('admin' in claims)) claim = { ...claims, admin: false };`
has two consequences modelled here: when `claims` is still `undefined`
(every input key reserved, or empty input) the `in` operator throws a
`TypeError` (an error result); otherwise the object with the `admin`
default is assigned to the unrelated identifier `claim`, so the returned
`claims` object is unchanged. -/
def normalizeClaims (raw : List (String × Value)) : Except String (List (String × Value)) :=
  match raw.foldl
      (fun acc p =>
        if reservedClaims.contains p.1 then acc
        else some (objInsert (acc.getD []) p.1 (tryParseBool p.2)))
      (none : Option (List (String × Value))) with
  | none => Except.error "TypeError"
  | some cs => Except.ok cs

/-- A user record as returned by the external identity verifier
(`signInWithCustomToken` followed by `getIdTokenResult`): the persisted user
fields together with the raw claim set of the id token. -/
structure VerifiedUser where
  uid : String
  email : String
  displayName : String
  claims : List (String × Value)
deriving DecidableEq, Repr

/-- The active user assembled by `retrieveUserFromToken`. -/
structure ActiveUser where
  uid : String
  email : String
  displayName : String
  customClaims : List (String × Value)
  token : String
deriving DecidableEq, Repr

/-- The value of `this.activeUser` after `initialize`: either an object
carrying an `errors` array, or a verified user object.  (Both shapes are
truthy JavaScript objects.) -/
inductive AuthResult where
  | errored (msgs : List String)
  | user (u : ActiveUser)
deriving DecidableEq, Repr

/-- `retrieveUserFromToken` (`src/index.js` lines 114-142).  The external
identity collaborator is the parameter `vf`: `none` models a failed
verification (the `catch` branch).  A `TypeError` from claim processing is
caught by the same `catch`. -/
def retrieveUserFromToken (vf : String → Option VerifiedUser) (token : String) : AuthResult :=
  if token ≠ "" then
    match vf token with
    | some vr =>
        match normalizeClaims vr.claims with
        | .ok cs => .user (ActiveUser.mk vr.uid vr.email vr.displayName cs token)
        | .error _ => .errored ["Could not validate user from token."]
    | none => .errored ["Could not validate user from token."]
  else .errored ["No token has been supplied to verify."]

/-- `retrieveUserFromRequest` (`src/index.js` lines 87-98): reads the
`x-token` header (`none` models an absent header; the empty string is falsy
and is treated the same way). -/
def retrieveUserFromRequest (vf : String → Option VerifiedUser) (xToken : Option String) : AuthResult :=
  match xToken with
  | some t =>
      if t ≠ "" then retrieveUserFromToken vf t
      else .errored ["The request has no token in the headers to verify."]
  | none => .errored ["The request has no token in the headers to verify."]

/-- A call made to the external `firebase-admin` identity-management API. -/
inductive AdminEffect where
  | listUsers (pageSize : Int) (pageToken : Option String)
  | setCustomUserClaims (uid : String) (claims : List (String × Value))
  | updateUser (uid : String)
deriving DecidableEq, Repr

/-- A user record in an `admin.auth().listUsers` response. -/
structure UserRecordModel where
  uid : String
  customClaims : List (String × Value)
deriving DecidableEq, Repr

/-- The external `listUsers` response. -/
structure ListUsersResponse where
  users : List UserRecordModel
  pageSize : Option Int
  pageToken : Option String
deriving DecidableEq, Repr

/-- Arguments of `getPageOfUsers`. -/
structure PageUsersArgs where
  pageSize : Option Int
  pageToken : Option String
deriving DecidableEq, Repr

/-- Result object of `getPageOfUsers`. -/
structure PageOfUsers where
  users : List UserRecordModel
  pageSize : Option Int
  pageToken : Option String
deriving DecidableEq, Repr

/-- `getPageOfUsers` (`src/index.js` lines 164-182).  The external
`listUsers` response is the parameter `resp`; the second component records
the identity-provider calls performed.  When the active user carries errors
the guard throws; when the `admin` custom claim is not truthy the function
body is skipped entirely and `undefined` (here `Except.ok none`) is
returned without any external call.  An errorless `errors: []` object would
reach `this.activeUser.customClaims.admin` with `customClaims` undefined
and throw a `TypeError`. -/
def getPageOfUsers (au : AuthResult) (args : PageUsersArgs) (resp : ListUsersResponse) :
    Except String (Option PageOfUsers) × List AdminEffect :=
  match au with
  | .errored msgs =>
      if msgs.length > 0 then (Except.error "User authentication error", [])
      else (Except.error "TypeError", [])
  | .user u =>
      if jsTruthy ((objGet u.customClaims "admin").getD Value.undef) then
        let ps : Int :=
          match args.pageSize with
          | some n => if n ≠ 0 then n else 50
          | none => 50
        let users := resp.users.map (fun r =>
          UserRecordModel.mk r.uid (r.customClaims.map (fun p => (p.1, tryParseBool p.2))))
        (Except.ok (some (PageOfUsers.mk users
            (match resp.pageSize with
             | some n => if n ≠ 0 then some n else args.pageSize
             | none => args.pageSize)
            resp.pageToken)),
         [AdminEffect.listUsers ps args.pageToken])
      else (Except.ok none, [])

/-- The `user` argument of `updateUserInfo`, split into its `uid` and
`customClaims` properties and the remaining fields (which include `email`). -/
structure UpdateUserArg where
  uid : Option String
  customClaims : Option (List (String × Value))
  fields : List (String × Value)
deriving DecidableEq, Repr

/-- The object `{ ...user, uid, customClaims }` returned by `updateUserInfo`. -/
structure UpdatedUserInfo where
  fields : List (String × Value)
  uid : String
  customClaims : List (String × Value)
deriving DecidableEq, Repr

/-- `updateUserInfo` (`src/index.js` lines 348-371).  `respFields` models
the user record returned by the external `admin.auth().updateUser` call.
The gate allows when the active user's `admin` claim is truthy or the
argument's `email` field strictly equals the active user's email; when it
denies, the body is skipped and `undefined` (`Except.ok none`) is returned
with no external call. -/
def updateUserInfo (au : AuthResult) (arg : UpdateUserArg) (respFields : List (String × Value)) :
    Except String (Option UpdatedUserInfo) × List AdminEffect :=
  match au with
  | .errored msgs =>
      if msgs.length > 0 then (Except.error "User authentication error", [])
      else (Except.error "TypeError", [])
  | .user u =>
      if jsTruthy ((objGet u.customClaims "admin").getD Value.undef)
          || (objGet arg.fields "email" == some (Value.str u.email)) then
        match arg.uid with
        | some uid =>
            if uid ≠ "" then
              let baseClaims : List (String × Value) := [("admin", Value.bool false)]
              match arg.customClaims with
              | some cc =>
                  let merged := objSpread baseClaims cc
                  if arg.fields.length > 0 then
                    (Except.ok (some (UpdatedUserInfo.mk respFields uid merged)),
                     [AdminEffect.setCustomUserClaims uid merged, AdminEffect.updateUser uid])
                  else
                    (Except.ok (some (UpdatedUserInfo.mk arg.fields uid merged)),
                     [AdminEffect.setCustomUserClaims uid merged])
              | none =>
                  if arg.fields.length > 0 then
                    (Except.ok (some (UpdatedUserInfo.mk respFields uid baseClaims)),
                     [AdminEffect.updateUser uid])
                  else
                    (Except.ok (some (UpdatedUserInfo.mk arg.fields uid baseClaims)), [])
            else (Except.error "User argument must have a uid to change the user info.", [])
        | none => (Except.error "User argument must have a uid to change the user info.", [])
      else (Except.ok none, [])

/-- A document held by the external Firestore collection: a store-assigned
identifier and the stored field data. -/
structure StoredDoc where
  id : String
  data : List (String × Value)
deriving DecidableEq, Repr

/-- An entry of the `where` array of the filter options.  Caller-supplied
predicates use the property `fieldName`; the built-in default entry in
`this.defaultFilterOptions` uses the property `field` instead, so both
possible keys are carried (absent properties are `none`). -/
structure WhereItem where
  fieldName : Option String
  field : Option String
  operator : Option String
  value : Option Value
deriving DecidableEq, Repr

/-- The default `where` entry `{ field: "", operator: "", value: "" }` from
the constructor (`src/index.js` lines 50-56); note it has no `fieldName`
property. -/
def defaultWhereItem : WhereItem :=
  WhereItem.mk none (some "") (some "") (some (Value.str ""))

/-- Filter options after merging defaults (`orderBy: ""`, `sortOrder:
"asc"`, the default `where` array). -/
structure FilterOptions where
  orderBy : String
  sortOrder : String
  whereItems : List WhereItem
deriving DecidableEq, Repr

/-- Caller-supplied `filterArgs` (absent properties are `none`). -/
structure FilterArgs where
  orderBy : Option String
  sortOrder : Option String
  whereItems : Option (List WhereItem)
deriving DecidableEq, Repr

/-- `{ ...this.defaultFilterOptions, ...filterArgs }`. -/
def mergeFilter (fargs : FilterArgs) : FilterOptions :=
  FilterOptions.mk (fargs.orderBy.getD "") (fargs.sortOrder.getD "asc")
    (fargs.whereItems.getD [defaultWhereItem])

/-- Page options after merging defaults (`pageSize: 20`, `direction:
"forward"`, `cursor: []`). -/
structure PageOptions where
  pageSize : Int
  direction : String
  cursor : List String
deriving DecidableEq, Repr

/-- Caller-supplied `pageArgs` (absent properties are `none`). -/
structure PageArgs where
  pageSize : Option Int
  direction : Option String
  cursor : Option (List String)
deriving DecidableEq, Repr

/-- `{ ...this.defaultPageOptions, ...pageArgs }`. -/
def mergePage (pargs : PageArgs) : PageOptions :=
  PageOptions.mk (pargs.pageSize.getD 20) (pargs.direction.getD "forward") (pargs.cursor.getD [])

/-- Total order on `Value` used to model the external store's `orderBy`
contract: rank by type, then compare within the type. -/
def valueRank : Value → Nat
  | .null => 0
  | .bool _ => 1
  | .num _ => 2
  | .str _ => 3
  | .undef => 4

/-- Comparison on `Value` for the modelled store ordering. -/
def valueCompare (a b : Value) : Ordering :=
  match a, b with
  | .bool x, .bool y => compare (cond x 1 0 : Nat) (cond y 1 0)
  | .num x, .num y => compare x y
  | .str x, .str y => compare x y
  | _, _ => compare (valueRank a) (valueRank b)

/-- Comparison of two stored documents on one `(field, direction)` ordering
refinement; a missing field compares as `undefined`, `"desc"` flips the
comparison, any other direction string behaves as ascending. -/
def fieldCompare (f dir : String) (a b : StoredDoc) : Ordering :=
  let c := valueCompare ((objGet a.data f).getD Value.undef) ((objGet b.data f).getD Value.undef)
  if dir = "desc" then c.swap else c

/-- Lexicographic combination of chained ordering refinements, earlier
refinements first (position-significant tie-breaking, per the external
store's `orderBy` contract). -/
def docCompare (pairs : List (String × String)) (a b : StoredDoc) : Ordering :=
  match pairs with
  | [] => .eq
  | (f, d) :: rest =>
      match fieldCompare f d a b with
      | .eq => docCompare rest a b
      | o => o

/-- Stable insertion for the modelled store sort. -/
def stableInsert (lt : StoredDoc → StoredDoc → Bool) (d : StoredDoc) : List StoredDoc → List StoredDoc
  | [] => [d]
  | e :: t => if lt e d then e :: stableInsert lt d t else d :: e :: t

/-- Stable sort for the modelled store (documents compared `Ordering.eq`
keep their stored order). -/
def stableSort (lt : StoredDoc → StoredDoc → Bool) : List StoredDoc → List StoredDoc
  | [] => []
  | d :: t => stableInsert lt d (stableSort lt t)

/-- The `(field, direction)` pairs produced by splitting the comma-joined
`orderBy` and `sortOrder` strings; a position with no direction, or an
empty-string direction, defaults to `"asc"` (`src/index.js` lines 657-662). -/
def orderPairs (orderBy sortOrder : String) : List (String × String) :=
  let dirs := sortOrder.splitOn ","
  (orderBy.splitOn ",").enum.map (fun p =>
    (p.2,
     match dirs.get? p.1 with
     | some d => if d ≠ "" then d else "asc"
     | none => "asc"))

/-- The chained `orderBy` refinements applied to the collection, modelled as
one lexicographic stable sort over the stored documents; skipped when the
merged `orderBy` string is empty. -/
def applyOrderBys (orderBy sortOrder : String) (docs : List StoredDoc) : List StoredDoc :=
  if orderBy ≠ "" then
    stableSort (fun a b => docCompare (orderPairs orderBy sortOrder) a b = Ordering.lt) docs
  else docs

/-- JavaScript truthiness of an optional string property. -/
def optStrTruthy : Option String → Bool
  | some s => s != ""
  | none => false

/-- JavaScript truthiness of an optional `Value` property. -/
def optValTruthy : Option Value → Bool
  | some v => jsTruthy v
  | none => false

/-- The guard deciding whether a `where` entry is forwarded to the store
(`src/index.js` line 665): `item.fieldName && item.fieldName !== "" &&
item.value && item.value !== "" && item.operator`. -/
def shouldForward (item : WhereItem) : Bool :=
  optStrTruthy item.fieldName && !(item.fieldName == some "")
    && optValTruthy item.value && !(item.value == some (Value.str ""))
    && optStrTruthy item.operator

/-- Evaluation of a forwarded comparison by the external store (its `where`
contract); an operator outside the modelled set applies no restriction. -/
def applyWhereOp (op : String) (fv : Option Value) (v : Value) : Bool :=
  if op = "==" then fv == some v
  else if op = "<" then
    match fv with
    | some x => valueCompare x v = Ordering.lt
    | none => false
  else if op = "<=" then
    match fv with
    | some x => valueCompare x v ≠ Ordering.gt
    | none => false
  else if op = ">" then
    match fv with
    | some x => valueCompare x v = Ordering.gt
    | none => false
  else if op = ">=" then
    match fv with
    | some x => valueCompare x v ≠ Ordering.lt
    | none => false
  else true

/-- The `where` refinements of `getPageOfDocuments` (`src/index.js` lines
663-669): each entry passing `shouldForward` is applied as a store `where`
refinement (with operator `item.operator !== "" ? item.operator : ""`);
every other entry is skipped. -/
def applyWheres (items : List WhereItem) (docs : List StoredDoc) : List StoredDoc :=
  items.foldl
    (fun acc item =>
      if shouldForward item then
        acc.filter (fun d =>
          applyWhereOp (item.operator.getD "") (objGet d.data (item.fieldName.getD "")) (item.value.getD Value.undef))
      else acc)
    docs

/-- The cursor `switch` of `getPageOfDocuments` (`src/index.js` lines
670-691), evaluated when the cursor list is non-empty.  Returns the
boundary document id passed to `startAfter` (if any) and the cursor list
after the direction adjustment (`back` assigns
`cursor.slice(0, cursor.length - 2)` back into the page options). -/
def cursorAdjust (direction : String) (cursor : List String) : Option String × List String :=
  if direction = "forward" then (cursor.getLast?, cursor)
  else if direction = "back" then
    if 0 < (cursor.take (cursor.length - 2)).length then
      ((cursor.take (cursor.length - 2)).getLast?, cursor.take (cursor.length - 2))
    else (none, cursor.take (cursor.length - 2))
  else (none, cursor)

/-- The boundary id handed to `startAfter`, guarded by
`pageOptions.cursor && pageOptions.cursor.length > 0`. -/
def positionalBoundary (popts : PageOptions) : Option String :=
  if 0 < popts.cursor.length then (cursorAdjust popts.direction popts.cursor).1 else none

/-- The cursor list after the direction adjustment (unchanged when the
guard or the `switch` leaves it alone). -/
def adjustedCursor (direction : String) (cursor : List String) : List String :=
  if 0 < cursor.length then (cursorAdjust direction cursor).2 else cursor

/-- The external store's `startAfter(boundarySnapshot)` contract: the
results strictly after the boundary document in query order. -/
def applyStartAfter (b : Option String) (docs : List StoredDoc) : List StoredDoc :=
  match b with
  | none => docs
  | some bid => (docs.dropWhile (fun d => d.id != bid)).drop 1

/-- The documents returned by the refined, limited query executed by
`getPageOfDocuments` (`src/index.js` lines 656-693). -/
def pageQueryRun (store : List StoredDoc) (fopts : FilterOptions) (popts : PageOptions) : List StoredDoc :=
  ((applyStartAfter (positionalBoundary popts)
      (applyWheres fopts.whereItems
        (applyOrderBys fopts.orderBy fopts.sortOrder store)))).take popts.pageSize.toNat

/-- The result of `getPageOfDocuments`: decoded documents and the mutated
cursor handed back to the caller. -/
structure PageResult where
  documents : List (List (String × Value))
  cursor : List String
deriving DecidableEq, Repr

/-- Body of `getPageOfDocuments` after the authentication guards
(`src/index.js` lines 655-704): run the refined query; when at least one
document is returned, append the last document's id to the adjusted cursor
and decode the documents; otherwise throw `"No more paged data."` exactly
when the adjusted cursor is non-empty. -/
def getPageOfDocumentsBody (store : List StoredDoc) (fargs : FilterArgs) (pargs : PageArgs) :
    Except String PageResult :=
  match (pageQueryRun store (mergeFilter fargs) (mergePage pargs)).getLast? with
  | some lastDoc =>
      Except.ok (PageResult.mk
        ((pageQueryRun store (mergeFilter fargs) (mergePage pargs)).map (fun d => decode d.id d.data))
        (adjustedCursor (mergePage pargs).direction (mergePage pargs).cursor ++ [lastDoc.id]))
  | none =>
      if adjustedCursor (mergePage pargs).direction (mergePage pargs).cursor = [] then
        Except.ok (PageResult.mk [] (adjustedCursor (mergePage pargs).direction (mergePage pargs).cursor))
      else Except.error "No more paged data."

/-- `getPageOfDocuments` (`src/index.js` lines 647-711) with its
authentication guards.  An `errors: []` object would pass the first guard
and the truthiness check and run the body. -/
def getPageOfDocuments (au : AuthResult) (store : List StoredDoc) (fargs : FilterArgs) (pargs : PageArgs) :
    Except String PageResult :=
  match au with
  | .errored msgs =>
      if msgs.length > 0 then Except.error "User authentication error"
      else getPageOfDocumentsBody store fargs pargs
  | .user _ => getPageOfDocumentsBody store fargs pargs

/-- Body of `getDocuments` after the guards (`src/index.js` lines 604-628):
apply the ordering refinements, read the whole collection, decode; zero
documents throws `"No data."`, which the `catch` rewraps as
`"Function getDocuments failed."`. -/
def getDocumentsBody (store : List StoredDoc) (fargs : FilterArgs) :
    Except String (List (List (String × Value))) :=
  if ((applyOrderBys (mergeFilter fargs).orderBy (mergeFilter fargs).sortOrder store).map
        (fun d => decode d.id d.data)).length = 0 then
    Except.error "Function getDocuments failed."
  else
    Except.ok ((applyOrderBys (mergeFilter fargs).orderBy (mergeFilter fargs).sortOrder store).map
      (fun d => decode d.id d.data))

/-- `getDocuments` (`src/index.js` lines 598-629) with its authentication
guards. -/
def getDocuments (au : AuthResult) (store : List StoredDoc) (fargs : FilterArgs) :
    Except String (List (List (String × Value))) :=
  match au with
  | .errored msgs =>
      if msgs.length > 0 then Except.error "User authentication error"
      else getDocumentsBody store fargs
  | .user _ => getDocumentsBody store fargs

/-- Body of `getDocumentById` after the guards (`src/index.js` lines
515-531): fetch the snapshot, decode it when it exists, `null` otherwise. -/
def getDocumentByIdBody (store : List StoredDoc) (i : String) :
    Except String (Option (List (String × Value))) :=
  match store.find? (fun d => d.id == i) with
  | some d => Except.ok (some (decode d.id d.data))
  | none => Except.ok none

/-- `getDocumentById` (`src/index.js` lines 509-532) with its
authentication guards. -/
def getDocumentById (au : AuthResult) (store : List StoredDoc) (i : String) :
    Except String (Option (List (String × Value))) :=
  match au with
  | .errored msgs =>
      if msgs.length > 0 then Except.error "User authentication error"
      else getDocumentByIdBody store i
  | .user _ => getDocumentByIdBody store i

/-- One cursor evolution step per successful page (the code appends the last
result's id to the adjusted cursor), iterated over the boundary ids `bs`
returned by consecutive page reads in one direction. -/
def iterPages (direction : String) (bs : List String) (c : List String) : List String :=
  match bs with
  | [] => c
  | b :: rest => iterPages direction rest (adjustedCursor direction c ++ [b])

/-! Concrete fixtures used by the witnesses and counterexamples below. -/

/-- An authenticated non-admin user. -/
def uNonAdmin : ActiveUser :=
  ActiveUser.mk "u1" "me@example.com" "Me" [("admin", Value.bool false)] "tok"

/-- An authenticated admin user. -/
def uReader : ActiveUser :=
  ActiveUser.mk "u2" "reader@example.com" "Reader" [("admin", Value.bool true)] "tok2"

/-- An identity verifier that rejects every token. -/
def vfNone : String → Option VerifiedUser := fun _ => none

/-- `getPageOfUsers` arguments fixture. -/
def argsU : PageUsersArgs := PageUsersArgs.mk (some 10) none

/-- Empty `listUsers` response fixture. -/
def respU : ListUsersResponse := ListUsersResponse.mk [] none none

/-- An update-user argument targeting a different account (its `email`
differs from `uNonAdmin`'s). -/
def argOther : UpdateUserArg :=
  UpdateUserArg.mk (some "target-uid") none [("email", Value.str "other@example.com")]

/-- Caller-supplied filter arguments with every property absent. -/
def fargs0 : FilterArgs := FilterArgs.mk none none none

/-- A three-document collection. -/
def store3 : List StoredDoc := [StoredDoc.mk "a" [], StoredDoc.mk "b" [], StoredDoc.mk "c" []]

/-- Page size 1, forward, empty cursor. -/
def pargsFwd1 : PageArgs := PageArgs.mk (some 1) (some "forward") (some [])

/-- Page size 1, back, cursor `["a"]` (the cursor returned by the first
forward page over `store3`). -/
def pargsBack1 : PageArgs := PageArgs.mk (some 1) (some "back") (some ["a"])

/-- Page size 1, forward, a two-entry boundary history. -/
def pargsHist : PageArgs := PageArgs.mk (some 1) (some "forward") (some ["a", "b"])

/-- An identity verifier returning a token whose non-reserved claims lack
`admin`. -/
def vfRoleOnly : String → Option VerifiedUser :=
  fun _ => some (VerifiedUser.mk "uid1" "user@example.com" "User" [("role", Value.str "editor")])

/-- A one-document collection whose stored data itself contains an `id`
field differing from the store-assigned identifier. -/
def storeShadow : List StoredDoc := [StoredDoc.mk "d1" [("id", Value.str "sneaky")]]

/-! Helper lemmas about the object model and the cursor dynamics. -/

theorem objGet_objInsert (o : List (String × Value)) (k k2 : String) (v : Value) :
    objGet (objInsert o k v) k2 = if k = k2 then some v else objGet o k2 := by
  induction o with
  | nil =>
      by_cases h : k = k2 <;> simp [objInsert, objGet, h]
  | cons p t ih =>
      by_cases hp : p.1 = k
      · by_cases hk : k = k2
        · simp [objInsert, objGet, hp, hk]
        · have hp2 : ¬ p.1 = k2 := by rw [hp]; exact hk
          simp [objInsert, objGet, hp, hk, hp2]
      · by_cases hpk : p.1 = k2
        · have hk : ¬ k = k2 := fun hh => hp (hpk.trans hh.symm)
          have hk2 : ¬ k2 = k := fun hh => hk hh.symm
          simp [objInsert, objGet, hp, hpk, hk, hk2]
        · simp [objInsert, objGet, hp, hpk, ih]

theorem objGet_append (a b : List (String × Value)) (k : String) :
    objGet (a ++ b) k = match objGet a k with | some v => some v | none => objGet b k := by
  induction a with
  | nil => simp [objGet]
  | cons p t ih =>
      by_cases h : p.1 = k <;> simp [objGet, h, ih]

theorem objGet_objSpread (l : List (String × Value)) (base : List (String × Value)) (k : String) :
    objGet (objSpread base l) k
      = match objGetLast l k with | some v => some v | none => objGet base k := by
  induction l generalizing base with
  | nil => simp [objSpread, objGetLast, objGet]
  | cons p t ih =>
      have hstep : objSpread base (p :: t) = objSpread (objInsert base p.1 p.2) t := rfl
      rw [hstep, ih]
      have hlast : objGetLast (p :: t) k
          = match objGetLast t k with
            | some v => some v
            | none => objGet [p] k := by
        show objGet (p :: t).reverse k = _
        rw [List.reverse_cons, objGet_append]
        rfl
      rw [hlast]
      cases hl : objGetLast t k with
      | some v => simp
      | none =>
          by_cases hp : p.1 = k
          · simp [objGet, hp, objGet_objInsert]
          · simp [objGet, hp, objGet_objInsert]

theorem adjustedCursor_forward (c : List String) : adjustedCursor "forward" c = c := by
  simp [adjustedCursor, cursorAdjust]

theorem take_sub_two (c : List String) : c.take (c.length - 2) = c.dropLast.dropLast := by
  rw [List.dropLast_eq_take, List.dropLast_eq_take, List.take_take, List.length_take]
  congr 1
  omega

theorem adjustedCursor_back (c : List String) (h : c ≠ []) :
    adjustedCursor "back" c = c.take (c.length - 2) := by
  have hl : 0 < c.length := List.length_pos.mpr h
  unfold adjustedCursor
  rw [if_pos hl]
  unfold cursorAdjust
  rw [if_neg (by decide : ¬("back" = "forward"))]
  rw [if_pos (rfl : "back" = "back")]
  split <;> rfl

theorem adjustedCursor_back_length (c : List String) (h : c ≠ []) :
    (adjustedCursor "back" c).length = c.length - 2 := by
  rw [adjustedCursor_back c h, List.length_take]
  omega

theorem iterPages_forward_length (bs : List String) (c : List String) :
    (iterPages "forward" bs c).length = c.length + bs.length := by
  induction bs generalizing c with
  | nil => simp [iterPages]
  | cons b rest ih =>
      show (iterPages "forward" rest (adjustedCursor "forward" c ++ [b])).length = _
      rw [ih, adjustedCursor_forward]
      simp
      omega

theorem iterPages_back_length (bs : List String) (c : List String) (h : c ≠ []) :
    (iterPages "back" bs c).length = max (c.length - bs.length) 1 := by
  induction bs generalizing c with
  | nil =>
      have hl : 0 < c.length := List.length_pos.mpr h
      simp [iterPages]
      omega
  | cons b rest ih =>
      show (iterPages "back" rest (adjustedCursor "back" c ++ [b])).length = _
      have hne : adjustedCursor "back" c ++ [b] ≠ [] := by simp
      rw [ih _ hne]
      have hlen : (adjustedCursor "back" c ++ [b]).length = c.length - 2 + 1 := by
        rw [List.length_append, adjustedCursor_back_length c h]
        simp
      rw [hlen]
      have hl : 0 < c.length := List.length_pos.mpr h
      simp only [List.length_cons]
      omega

theorem pageBody_cursor_shape (store : List StoredDoc) (fargs : FilterArgs) (pargs : PageArgs)
    (r : PageResult) (hok : getPageOfDocumentsBody store fargs pargs = Except.ok r)
    (hne : r.documents ≠ []) :
    r.cursor ≠ []
      ∧ r.cursor.dropLast = adjustedCursor (mergePage pargs).direction (mergePage pargs).cursor := by
  unfold getPageOfDocumentsBody at hok
  split at hok
  · rename_i lastDoc hlast
    have hr := Except.ok.inj hok
    subst hr
    constructor
    · simp
    · simp
  · split at hok
    · have hr := Except.ok.inj hok
      subst hr
      simp at hne
    · exact absurd hok (by simp)

theorem pageOfDocuments_cursor_shape (au : AuthResult) (store : List StoredDoc)
    (fargs : FilterArgs) (pargs : PageArgs) (r : PageResult)
    (hok : getPageOfDocuments au store fargs pargs = Except.ok r)
    (hne : r.documents ≠ []) :
    r.cursor ≠ []
      ∧ r.cursor.dropLast = adjustedCursor (mergePage pargs).direction (mergePage pargs).cursor := by
  cases au with
  | errored msgs =>
      by_cases hm : msgs.length > 0
      · simp only [getPageOfDocuments, hm, if_true] at hok
        exact absurd hok (by simp)
      · simp only [getPageOfDocuments, hm, if_false] at hok
        exact pageBody_cursor_shape store fargs pargs r hok hne
  | user u => exact pageBody_cursor_shape store fargs pargs r hok hne

/-! Claim theorems. -/

/-- C1, counterexample: decoding a snapshot with identifier `"x"` and data
`{id: "should-be-ignored", name: "Jo"}` yields
`{id: "should-be-ignored", name: "Jo"}` — the stored field, not the
store-assigned identifier, wins, contradicting the claim that the result's
`id` equals `"x"`. -/
theorem decode_id_field_shadows_cex :
    decode "x" [("id", Value.str "should-be-ignored"), ("name", Value.str "Jo")]
      = [("id", Value.str "should-be-ignored"), ("name", Value.str "Jo")]
    ∧ objGet (decode "x" [("id", Value.str "should-be-ignored"), ("name", Value.str "Jo")]) "id"
      ≠ some (Value.str "x") :=
  ⟨rfl, by decide⟩

/-- C1 (amended): document reads decode a snapshot as the object literal
`{id: snapshot.id, ...snapshot.data()}`, so the stored field data wins: the
returned document's `id` equals the stored `id` field's value when the data
contains one, and the store-assigned identifier only otherwise; the read
operations (here grounded through `getDocumentById`) return exactly this
decoding. -/
theorem decode_stored_id_field_wins (ident : String) (data : List (String × Value))
    (u : ActiveUser) (store : List StoredDoc) (i : String) (d : StoredDoc)
    (hfind : store.find? (fun e => e.id == i) = some d) :
    objGet (decode ident data) "id" = some ((objGetLast data "id").getD (Value.str ident))
    ∧ getDocumentById (AuthResult.user u) store i = Except.ok (some (decode d.id d.data)) := by
  constructor
  · show objGet (objSpread [("id", Value.str ident)] data) "id" = _
    rw [objGet_objSpread]
    cases hl : objGetLast data "id" with
    | some v => simp
    | none => simp [objGet]
  · simp only [getDocumentById, getDocumentByIdBody, hfind]

/-- C1, witness for the amended theorem at the snapshot of the scenario and
at the one-document collection `storeShadow`. -/
theorem decode_stored_id_field_wins_witness :
    objGet (decode "x" [("id", Value.str "should-be-ignored"), ("name", Value.str "Jo")]) "id"
      = some ((objGetLast [("id", Value.str "should-be-ignored"), ("name", Value.str "Jo")] "id").getD
          (Value.str "x"))
    ∧ getDocumentById (AuthResult.user uReader) storeShadow "d1"
      = Except.ok (some (decode "d1" [("id", Value.str "sneaky")])) :=
  decode_stored_id_field_wins "x" [("id", Value.str "should-be-ignored"), ("name", Value.str "Jo")]
    uReader storeShadow "d1" (StoredDoc.mk "d1" [("id", Value.str "sneaky")]) rfl

/-- C2: the claim says the produced custom-claims mapping always contains
`admin` (defaulting to `false` when absent), but the line
`if (!('admin' in claims)) claim = { ...claims, admin: false };` assigns
the defaulted object to the unrelated identifier `claim`, so for the
failing input `{role: "editor"}` the produced mapping has no `admin` key at
all; the assembled active user carries those claims unchanged. -/
theorem normalizeClaims_admin_default_missing :
    normalizeClaims [("role", Value.str "editor")] = Except.ok [("role", Value.str "editor")]
    ∧ objGet [("role", Value.str "editor")] "admin" = none
    ∧ retrieveUserFromToken vfRoleOnly "tok"
      = AuthResult.user (ActiveUser.mk "uid1" "user@example.com" "User"
          [("role", Value.str "editor")] "tok") :=
  ⟨rfl, rfl, rfl⟩

/-- C9: a custom-claim value that is a string equal case-insensitively to
`"true"` becomes the boolean `true`, one equal case-insensitively to
`"false"` becomes `false`, and every other value — any other string and any
non-string — passes through `tryParseBool` unchanged. -/
theorem tryParseBool_spec (v : Value) (s : String) :
    (jsToLowerCase s = "true" → tryParseBool (Value.str s) = Value.bool true)
    ∧ (jsToLowerCase s = "false" → tryParseBool (Value.str s) = Value.bool false)
    ∧ (jsToLowerCase s ≠ "true" → jsToLowerCase s ≠ "false" → tryParseBool (Value.str s) = Value.str s)
    ∧ ((∀ t, v ≠ Value.str t) → tryParseBool v = v) := by
  refine ⟨fun h => ?_, fun h => ?_, fun h1 h2 => ?_, fun h => ?_⟩
  · simp [tryParseBool, h]
  · have hne : jsToLowerCase s ≠ "true" := by rw [h]; decide
    simp [tryParseBool, h, hne]
  · simp [tryParseBool, h1, h2]
  · cases v with
    | str t => exact absurd rfl (h t)
    | bool b => rfl
    | num n => rfl
    | null => rfl
    | undef => rfl

/-- C9, witness at the strings `"TRUE"`, `"False"`, `"yes"` and the
non-string `3`. -/
theorem tryParseBool_spec_witness :
    tryParseBool (Value.str "TRUE") = Value.bool true
    ∧ tryParseBool (Value.str "False") = Value.bool false
    ∧ tryParseBool (Value.str "yes") = Value.str "yes"
    ∧ tryParseBool (Value.num 3) = Value.num 3 :=
  ⟨(tryParseBool_spec (Value.num 3) "TRUE").1 (by decide),
   (tryParseBool_spec (Value.num 3) "False").2.1 (by decide),
   (tryParseBool_spec (Value.num 3) "yes").2.2.1 (by decide) (by decide),
   (tryParseBool_spec (Value.num 3) "x").2.2.2 (fun t h => Value.noConfusion h)⟩

/-- C3, counterexample: with an authenticated non-admin active user (and,
for the self-or-admin gate, a target email differing from the active
user's), the gated operations deny but do not raise an error — they fall
through and return `undefined` (`Except.ok none`). -/
theorem denied_ops_do_not_raise_cex :
    (getPageOfUsers (AuthResult.user uNonAdmin) argsU respU).1 = Except.ok none
    ∧ (updateUserInfo (AuthResult.user uNonAdmin) argOther []).1 = Except.ok none :=
  ⟨rfl, rfl⟩

/-- C3 (amended): when the gate denies (active user present, `admin` claim
not truthy and, for `updateUserInfo`, target email differing from the
active user's), the operation performs no store or identity-provider access
but raises no error either: it returns `undefined` with an empty effect
list. -/
theorem denied_ops_silent_no_access (u : ActiveUser) (args : PageUsersArgs)
    (resp : ListUsersResponse) (arg : UpdateUserArg) (respFields : List (String × Value))
    (hadmin : jsTruthy ((objGet u.customClaims "admin").getD Value.undef) = false)
    (hemail : objGet arg.fields "email" ≠ some (Value.str u.email)) :
    getPageOfUsers (AuthResult.user u) args resp = (Except.ok none, [])
    ∧ updateUserInfo (AuthResult.user u) arg respFields = (Except.ok none, []) := by
  constructor
  · simp [getPageOfUsers, hadmin]
  · have hb : (objGet arg.fields "email" == some (Value.str u.email)) = false := by
      rw [beq_eq_false_iff_ne]
      exact hemail
    simp [updateUserInfo, hadmin, hb]

/-- C3, witness for the amended theorem at the non-admin fixture and the
other-account update argument. -/
theorem denied_ops_silent_no_access_witness :
    getPageOfUsers (AuthResult.user uNonAdmin) argsU respU = (Except.ok none, [])
    ∧ updateUserInfo (AuthResult.user uNonAdmin) argOther [] = (Except.ok none, []) :=
  denied_ops_silent_no_access uNonAdmin argsU respU argOther [] (by decide) (by decide)

/-- C5, counterexample: a request carrying no bearer token does not yield
an errorless "no active user" state: session initialization returns an
object carrying a non-empty `errors` array, and a subsequent operation
surfaces it as an authentication error. -/
theorem missing_token_error_state_cex :
    retrieveUserFromRequest vfNone none
      = AuthResult.errored ["The request has no token in the headers to verify."]
    ∧ getDocuments (retrieveUserFromRequest vfNone none) [] fargs0
      = Except.error "User authentication error" :=
  ⟨rfl, rfl⟩

/-- C5 (amended): when the request carries no token in the fixed header
(absent or empty, both falsy), session initialization returns an
error-carrying state — the same kind of state a failed verification
produces — and every subsequent operation surfaces such a state as an
authentication error; there is no errorless "no active user" outcome. -/
theorem missing_token_error_state (vf : String → Option VerifiedUser) (tok : Option String)
    (msgs : List String) (store : List StoredDoc) (fargs : FilterArgs) (t : String)
    (htok : tok = none ∨ tok = some "") (hmsgs : msgs ≠ [])
    (hvf : vf t = none) (ht : t ≠ "") :
    retrieveUserFromRequest vf tok
      = AuthResult.errored ["The request has no token in the headers to verify."]
    ∧ retrieveUserFromToken vf t = AuthResult.errored ["Could not validate user from token."]
    ∧ getDocuments (AuthResult.errored msgs) store fargs
      = Except.error "User authentication error" := by
  refine ⟨?_, ?_, ?_⟩
  · rcases htok with h | h <;> subst h
    · rfl
    · simp [retrieveUserFromRequest]
  · simp [retrieveUserFromToken, ht, hvf]
  · have hl : msgs.length > 0 := List.length_pos.mpr hmsgs
    simp [getDocuments, hl]

/-- C5, witness for the amended theorem at a tokenless request, a rejected
token and a non-empty error list. -/
theorem missing_token_error_state_witness :
    retrieveUserFromRequest vfNone none
      = AuthResult.errored ["The request has no token in the headers to verify."]
    ∧ retrieveUserFromToken vfNone "badtok"
      = AuthResult.errored ["Could not validate user from token."]
    ∧ getDocuments (AuthResult.errored ["e"]) [] fargs0
      = Except.error "User authentication error" :=
  missing_token_error_state vfNone none ["e"] [] fargs0 "badtok" (Or.inl rfl) (by decide) rfl
    (by decide)

/-- C4, counterexample: an unpaged `getDocuments` read over a collection
with zero matching documents does not return normally — it raises the
wrapped `"No data."` error. -/
theorem getDocuments_empty_is_error_cex :
    getDocuments (AuthResult.user uReader) [] fargs0
      = Except.error "Function getDocuments failed." :=
  rfl

/-- C4 (amended): zero results IS an error for the unpaged `getDocuments`
(`"No data."`, rethrown as `"Function getDocuments failed."`); the paged
`getPageOfDocuments` with zero results raises `"No more paged data."`
exactly when the cursor's boundary-id list after the direction adjustment
is non-empty, and returns normally (empty page, empty cursor) when the
adjusted list is empty. -/
theorem zero_results_error_policy (u : ActiveUser) (store : List StoredDoc)
    (fargs : FilterArgs) (pargs : PageArgs)
    (hq : pageQueryRun store (mergeFilter fargs) (mergePage pargs) = [])
    (hd : applyOrderBys (mergeFilter fargs).orderBy (mergeFilter fargs).sortOrder store = []) :
    getDocuments (AuthResult.user u) store fargs = Except.error "Function getDocuments failed."
    ∧ getPageOfDocuments (AuthResult.user u) store fargs pargs
      = (if adjustedCursor (mergePage pargs).direction (mergePage pargs).cursor = []
         then Except.ok (PageResult.mk [] [])
         else Except.error "No more paged data.") := by
  constructor
  · simp [getDocuments, getDocumentsBody, hd]
  · by_cases hac : adjustedCursor (mergePage pargs).direction (mergePage pargs).cursor = []
    · simp [getPageOfDocuments, getPageOfDocumentsBody, hq, hac]
    · simp [getPageOfDocuments, getPageOfDocumentsBody, hq, hac]

/-- C4, witness for the amended theorem over the empty collection, both
with an empty cursor (first page, no error) and with a two-entry boundary
history (end of pagination, `"No more paged data."`). -/
theorem zero_results_error_policy_witness :
    (getDocuments (AuthResult.user uReader) [] fargs0 = Except.error "Function getDocuments failed."
      ∧ getPageOfDocuments (AuthResult.user uReader) [] fargs0 pargsFwd1
        = (if adjustedCursor (mergePage pargsFwd1).direction (mergePage pargsFwd1).cursor = []
           then Except.ok (PageResult.mk [] [])
           else Except.error "No more paged data."))
    ∧ (getDocuments (AuthResult.user uReader) [] fargs0 = Except.error "Function getDocuments failed."
      ∧ getPageOfDocuments (AuthResult.user uReader) [] fargs0 pargsHist
        = (if adjustedCursor (mergePage pargsHist).direction (mergePage pargsHist).cursor = []
           then Except.ok (PageResult.mk [] [])
           else Except.error "No more paged data.")) :=
  ⟨zero_results_error_policy uReader [] fargs0 pargsFwd1 rfl rfl,
   zero_results_error_policy uReader [] fargs0 pargsHist rfl rfl⟩

/-- C6, counterexample: over the three-document collection with page size 1,
one forward advance from the empty cursor yields boundary list `["a"]`, and
one back advance from that state yields `["a"]` again — not the empty list
the claim requires for N = 1. -/
theorem cursor_roundtrip_not_empty_cex :
    getPageOfDocuments (AuthResult.user uReader) store3 fargs0 pargsFwd1
      = Except.ok (PageResult.mk [[("id", Value.str "a")]] ["a"])
    ∧ getPageOfDocuments (AuthResult.user uReader) store3 fargs0 pargsBack1
      = Except.ok (PageResult.mk [[("id", Value.str "a")]] ["a"])
    ∧ (["a"] : List String) ≠ [] :=
  ⟨rfl, rfl, by decide⟩

/-- C6 (amended): because every page read with a non-empty result appends
its last document's id to the (direction-adjusted) boundary list — exactly
the cursor shape `getPageOfDocuments` returns — starting from an empty
cursor and performing N ≥ 1 forward advances followed by N back advances
(each returning data) leaves exactly one boundary id, never the empty
list. -/
theorem cursor_roundtrip_singleton (fbs bbs : List String) (au : AuthResult)
    (store : List StoredDoc) (fargs : FilterArgs) (pargs : PageArgs) (r : PageResult)
    (hlen : fbs.length = bbs.length) (hpos : 1 ≤ fbs.length)
    (hok : getPageOfDocuments au store fargs pargs = Except.ok r) (hne : r.documents ≠ []) :
    (iterPages "back" bbs (iterPages "forward" fbs [])).length = 1
    ∧ r.cursor ≠ []
    ∧ r.cursor.dropLast = adjustedCursor (mergePage pargs).direction (mergePage pargs).cursor := by
  have hfl : (iterPages "forward" fbs ([] : List String)).length = fbs.length := by
    rw [iterPages_forward_length]
    simp
  have hfne : iterPages "forward" fbs ([] : List String) ≠ [] := by
    intro hcontra
    rw [hcontra] at hfl
    simp at hfl
    omega
  have h1 : (iterPages "back" bbs (iterPages "forward" fbs [])).length
      = max ((iterPages "forward" fbs ([] : List String)).length - bbs.length) 1 :=
    iterPages_back_length bbs _ hfne
  have h2 := pageOfDocuments_cursor_shape au store fargs pargs r hok hne
  refine ⟨?_, h2.1, h2.2⟩
  rw [h1, hfl]
  omega

/-- C6, witness for the amended theorem at N = 1 and the concrete back
advance over the three-document collection. -/
theorem cursor_roundtrip_singleton_witness :
    (iterPages "back" ["a"] (iterPages "forward" ["a"] [])).length = 1
    ∧ (PageResult.mk [[("id", Value.str "a")]] ["a"]).cursor ≠ []
    ∧ (PageResult.mk [[("id", Value.str "a")]] ["a"]).cursor.dropLast
      = adjustedCursor (mergePage pargsBack1).direction (mergePage pargsBack1).cursor :=
  cursor_roundtrip_singleton ["a"] ["a"] (AuthResult.user uReader) store3 fargs0 pargsBack1
    (PageResult.mk [[("id", Value.str "a")]] ["a"]) rfl (by decide) rfl (by decide)

/-- C7: on a non-empty cursor, direction `"back"` first removes the two
most recent boundary ids; when a boundary id remains the query is refined
to start after the last remaining one, and when none remain (or the
direction is neither `"forward"` nor `"back"`) no positional refinement is
applied (the `startAfter` boundary is `none`, which leaves the query
untouched). -/
theorem back_direction_cursor_adjust (c : List String) (q : List StoredDoc) (ps : Int)
    (dir : String) (hc : c ≠ []) (hd1 : dir ≠ "forward") (hd2 : dir ≠ "back") :
    adjustedCursor "back" c = c.dropLast.dropLast
    ∧ positionalBoundary (PageOptions.mk ps "back" c) = c.dropLast.dropLast.getLast?
    ∧ positionalBoundary (PageOptions.mk ps dir c) = none
    ∧ adjustedCursor dir c = c
    ∧ applyStartAfter none q = q := by
  have hl : 0 < c.length := List.length_pos.mpr hc
  have htake := take_sub_two c
  refine ⟨?_, ?_, ?_, ?_, rfl⟩
  · rw [adjustedCursor_back c hc, htake]
  · show (if 0 < c.length then (cursorAdjust "back" c).1 else none) = _
    rw [if_pos hl]
    unfold cursorAdjust
    rw [if_neg (by decide : ¬("back" = "forward")), if_pos (rfl : "back" = "back")]
    rw [← htake]
    split
    · rfl
    · rename_i hlen
      have h0 : (c.take (c.length - 2)).length = 0 := by omega
      have hnil : c.take (c.length - 2) = [] := List.eq_nil_of_length_eq_zero h0
      rw [hnil]
      rfl
  · show (if 0 < c.length then (cursorAdjust dir c).1 else none) = _
    rw [if_pos hl]
    unfold cursorAdjust
    rw [if_neg hd1, if_neg hd2]
  · show (if 0 < c.length then (cursorAdjust dir c).2 else c) = _
    rw [if_pos hl]
    unfold cursorAdjust
    rw [if_neg hd1, if_neg hd2]

/-- C7, witness at the three-entry cursor and the direction `"up"`. -/
theorem back_direction_cursor_adjust_witness :
    adjustedCursor "back" ["x1", "x2", "x3"] = (["x1", "x2", "x3"] : List String).dropLast.dropLast
    ∧ positionalBoundary (PageOptions.mk 1 "back" ["x1", "x2", "x3"])
      = (["x1", "x2", "x3"] : List String).dropLast.dropLast.getLast?
    ∧ positionalBoundary (PageOptions.mk 1 "up" ["x1", "x2", "x3"]) = none
    ∧ adjustedCursor "up" ["x1", "x2", "x3"] = ["x1", "x2", "x3"]
    ∧ applyStartAfter none ([] : List StoredDoc) = [] :=
  back_direction_cursor_adjust ["x1", "x2", "x3"] [] 1 "up" (by decide) (by decide) (by decide)

/-- C8: a `where` entry whose field name, operator or value is empty
(absent or the empty string) never passes the forwarding guard, so it is
never applied as a store `where` refinement; in particular the built-in
default entry is always skipped. -/
theorem empty_predicate_never_forwarded (item : WhereItem) (docs : List StoredDoc)
    (he : item.fieldName = none ∨ item.fieldName = some "" ∨ item.operator = none
        ∨ item.operator = some "" ∨ item.value = none ∨ item.value = some (Value.str "")) :
    shouldForward item = false
    ∧ applyWheres [item] docs = docs
    ∧ shouldForward defaultWhereItem = false := by
  have hsf : shouldForward item = false := by
    rcases he with h | h | h | h | h | h <;>
      simp [shouldForward, optStrTruthy, optValTruthy, jsTruthy, h]
  exact ⟨hsf, by simp [applyWheres, hsf], by decide⟩

/-- C8, witness at the default `where` entry. -/
theorem empty_predicate_never_forwarded_witness :
    shouldForward defaultWhereItem = false
    ∧ applyWheres [defaultWhereItem] [] = []
    ∧ shouldForward defaultWhereItem = false :=
  empty_predicate_never_forwarded defaultWhereItem [] (Or.inl rfl)

/-- C10 (implicit): a `where` entry is forwarded to the store only when it
carries a non-empty `fieldName` property; an entry shaped like the built-in
default — using the key `field` instead — is skipped regardless of its
operator and value, so it never refines the query. -/
theorem field_key_predicate_skipped (item : WhereItem) (f op : String) (v : Value)
    (docs : List StoredDoc) :
    (shouldForward item = true → item.fieldName ≠ none ∧ item.fieldName ≠ some "")
    ∧ shouldForward (WhereItem.mk none (some f) (some op) (some v)) = false
    ∧ applyWheres [WhereItem.mk none (some f) (some op) (some v)] docs = docs := by
  refine ⟨fun h => ?_, ?_, ?_⟩
  · cases hf : item.fieldName with
    | none => simp [shouldForward, optStrTruthy, hf] at h
    | some s =>
        rcases eq_or_ne s "" with hs0 | hs0
        · subst hs0
          simp [shouldForward, optStrTruthy, hf] at h
        · exact ⟨by simp [hf], by simp [hf, hs0]⟩
  · simp [shouldForward, optStrTruthy]
  · simp [applyWheres, shouldForward, optStrTruthy]

/-- C10, witness: a `fieldName`-keyed entry passes the guard precondition,
while a `field`-keyed entry with non-empty operator and value is skipped. -/
theorem field_key_predicate_skipped_witness :
    ((WhereItem.mk (some "age") none (some "==") (some (Value.str "5"))).fieldName ≠ none
      ∧ (WhereItem.mk (some "age") none (some "==") (some (Value.str "5"))).fieldName ≠ some "")
    ∧ shouldForward (WhereItem.mk none (some "age") (some "==") (some (Value.str "5"))) = false
    ∧ applyWheres [WhereItem.mk none (some "age") (some "==") (some (Value.str "5"))] [] = [] :=
  ⟨(field_key_predicate_skipped (WhereItem.mk (some "age") none (some "==") (some (Value.str "5")))
      "age" "==" (Value.str "5") []).1 (by decide),
   (field_key_predicate_skipped (WhereItem.mk (some "age") none (some "==") (some (Value.str "5")))
      "age" "==" (Value.str "5") []).2.1,
   (field_key_predicate_skipped (WhereItem.mk (some "age") none (some "==") (some (Value.str "5")))
      "age" "==" (Value.str "5") []).2.2⟩

end ApolloFirebase
